import Mathlib

/-!
Shallow embedding of the evidence buffering and replay engine of
`src/test/support/AllureFailingHookReporter.ts`.

Modelling conventions:
- JS numbers used as millisecond timestamps are modelled as `Nat`.
- Nullable / optional JS values are modelled as `Option`.
- The two JS `Set`s of opaque handles are modelled as duplicate-free
  `List Nat` (insert-if-absent, erase).
- `process.emit('allure:runtimeMessage', m)` synchronously re-enters the
  reporter's own listener, so the model threads the emitted message back
  through `handleRuntimeMessage` and records it in an output trace.
- String primitives (`includes`, `trim`, `split`, `toLowerCase`, UTF-8 and
  base64 codecs) are implemented over character lists so that every
  definition evaluates inside the kernel.
-/

namespace AllureReporter

/-- Does the character list start with the given pattern? -/
def listStarts : List Char → List Char → Bool
  | p :: ps, c :: cs => p = c && listStarts ps cs
  | [], _ => true
  | _, _ => false

/-- Substring search on character lists (haystack, needle). -/
def containsChars : List Char → List Char → Bool
  | [], pat => pat.isEmpty
  | c :: rest, pat => listStarts pat (c :: rest) || containsChars rest pat

/-- Model of JS `String.prototype.includes`. -/
def containsStr (s pat : String) : Bool :=
  containsChars s.toList pat.toList

/-- Model of JS `String.prototype.trim` (ASCII whitespace approximation). -/
def trimStr (s : String) : String :=
  String.mk ((((s.toList.dropWhile Char.isWhitespace).reverse).dropWhile
    Char.isWhitespace).reverse)

/-- Model of JS `String.prototype.toLowerCase` (ASCII). -/
def lowerStr (s : String) : String :=
  String.mk (s.toList.map Char.toLower)

/-- Split a character list at every newline character. -/
def splitOnNl : List Char → List (List Char)
  | [] => [[]]
  | c :: rest =>
    if c = '\n' then [] :: splitOnNl rest
    else
      match splitOnNl rest with
      | [] => [[c]]
      | seg :: segs => (c :: seg) :: segs

/-- Drop one trailing carriage return. -/
def dropTrailingCR (l : List Char) : List Char :=
  if l.getLast? = some '\r' then l.dropLast else l

/-- Apply `dropTrailingCR` to every segment except the last. -/
def mapInitCR : List (List Char) → List (List Char)
  | [] => []
  | [x] => [x]
  | x :: xs => dropTrailingCR x :: mapInitCR xs

/-- Model of `consoleOut.split(/\r?\n/)`. -/
def splitLines (s : String) : List String :=
  (mapInitCR (splitOnNl s.toList)).map String.mk

/-- Status details extracted from an error (`{ message?, trace? }`). -/
structure StatusDetails where
  message : Option String
  trace : Option String
deriving DecidableEq, Repr

/-- The JS `unknown` error value carried on a hook stats object. -/
inductive ErrVal where
  | obj (message : Option String) (stack : Option String)
  | str (s : String)
deriving DecidableEq, Repr

/-- JS truthiness of `!!h?.error` (a non-null object is truthy, a string is
truthy iff non-empty). -/
def errTruthy : Option ErrVal → Bool
  | none => false
  | some (.obj _ _) => true
  | some (.str s) => decide (s ≠ "")

/-- `getMessageAndTraceFromErrorLocal` from the source. -/
def getMessageAndTraceFromErrorLocal : Option ErrVal → StatusDetails
  | some (.obj m s) => ⟨m, s⟩
  | some (.str s) => ⟨some s, some s⟩
  | none => ⟨some ("undefined"), none⟩

/-- The Allure runtime messages the reporter handles (`WDIORuntimeMessage`).
Tags not inspected by this module are collapsed into `other`. -/
inductive RMsg where
  | step_start (name : Option String)
  | step_stop (stop : Option Nat)
  | attachment_content (name : Option String) (content : Option String)
      (contentType : Option String) (encoding : Option String)
  | metadata (labels : List (String × String))
  | testStartMsg (name : String) (start : Nat)
  | testEndMsg (status : String) (details : StatusDetails) (stop : Nat)
  | hookStartMsg (htype : String) (name : String) (start : Nat)
  | hookEndMsg (status : String) (stop : Nat) (duration : Nat)
  | other (tag : String)
deriving DecidableEq, Repr

/-- `BufferedEvent`: a runtime message plus its capture timestamp
(the source's `at` field; `at` is reserved in Lean). -/
structure BufferedEvent where
  message : RMsg
  capturedAt : Nat
deriving DecidableEq, Repr

/-- JS truthiness of `ev.message.data.stop` (absent or `0` is falsy). -/
def stopTruthy : Option Nat → Bool
  | none => false
  | some n => decide (n ≠ 0)

/-- One iteration of the min/max loop of `getBufferedMinMaxTimes`. -/
def minmaxStep (p : Option Nat × Nat) (ev : BufferedEvent) :
    Option Nat × Nat :=
  (match p.1 with
    | none => some ev.capturedAt
    | some m => if ev.capturedAt < m then some ev.capturedAt else some m,
   if ev.capturedAt > p.2 then ev.capturedAt else p.2)

/-- `getBufferedMinMaxTimes`: timing bounds of a buffered-event list.
`now` stands for `Date.now()`.  The `Number.POSITIVE_INFINITY` sentinel of
the source's `min` accumulator is modelled as `none`. -/
def getBufferedMinMaxTimes (now : Nat) (events : List BufferedEvent) :
    Nat × Nat :=
  if events.length = 0 then (now, now)
  else
    let p := events.foldl minmaxStep ((none : Option Nat), 0)
    let mn := match p.1 with | none => now | some m => m
    let mx := if p.2 = 0 then mn else p.2
    (mn, mx)

/-- UTF-8 bytes of one character (model of Node's utf8 encoding). -/
def utf8Bytes (c : Char) : List Nat :=
  let n := c.toNat
  if n < 128 then [n]
  else if n < 2048 then [192 + n / 64, 128 + n % 64]
  else if n < 65536 then
    [224 + n / 4096, 128 + (n / 64) % 64, 128 + n % 64]
  else
    [240 + n / 262144, 128 + (n / 4096) % 64, 128 + (n / 64) % 64,
     128 + n % 64]

/-- UTF-8 bytes of a string. -/
def strUtf8 (s : String) : List Nat :=
  (s.toList.map utf8Bytes).flatten

/-- Base64 alphabet used by `Buffer.prototype.toString('base64')`. -/
def base64Alphabet : List Char :=
  ("ABCDEFGHIJKLMNOPQRSTUVWXYZabcdefghijklmnopqrstuvwxyz0123456789+/").toList

def base64Char (n : Nat) : Char := base64Alphabet.getD n ('A')

/-- Base64-encode a byte list, three bytes at a time with `=` padding. -/
def encodeB64Bytes : List Nat → List Char
  | b1 :: b2 :: b3 :: rest =>
      base64Char (b1 / 4) ::
      base64Char ((b1 % 4) * 16 + b2 / 16) ::
      base64Char ((b2 % 16) * 4 + b3 / 64) ::
      base64Char (b3 % 64) :: encodeB64Bytes rest
  | [b1, b2] =>
      [base64Char (b1 / 4), base64Char ((b1 % 4) * 16 + b2 / 16),
       base64Char ((b2 % 16) * 4), '=']
  | [b1] =>
      [base64Char (b1 / 4), base64Char ((b1 % 4) * 16), '=', '=']
  | [] => []

/-- `Buffer.from(s).toString('base64')`. -/
def encodeBase64 (s : String) : String :=
  String.mk (encodeB64Bytes (strUtf8 s))

example : encodeBase64 ("abc") = "YWJj" := by decide
example : encodeBase64 ("a") = "YQ==" := by decide
example : containsStr ("x \"before all\" hook y") ("\"before all\" hook") =
    true := by decide
example : trimStr ("  a b \n") = "a b" := by decide
example : splitLines ("a\r\nb\nc\r") = ["a", "b", "c\r"] := by decide

/-- The mutable fields of one `AllureFailingHookReporter` instance. -/
structure ReporterState where
  hasRealTestStarted : Bool
  inBeforeAll : Bool
  inAfterAll : Bool
  hookSuiteTitle : String
  activeSuites : List Nat
  activeHooks : List Nat
  activeTests : List Nat
  bufferedEvents : List BufferedEvent
  globalSetupEvents : List BufferedEvent
  hookConsoleOutput : String
  hookErrorOutput : String
  hookLogsPrepended : Bool
  isFlushing : Bool
  exitHandlerRan : Bool
  lastGlobalError : Option StatusDetails
  globalFixtureReplayed : Bool
  stdoutWrapperInstalled : Bool
deriving DecidableEq, Repr

/-- The freshly constructed reporter (all fields at their initializers;
the constructor installs the stream wrapper immediately). -/
def initialState : ReporterState :=
  { hasRealTestStarted := false, inBeforeAll := false, inAfterAll := false
    hookSuiteTitle := "", activeSuites := [], activeHooks := []
    activeTests := [], bufferedEvents := [], globalSetupEvents := []
    hookConsoleOutput := "", hookErrorOutput := ""
    hookLogsPrepended := false, isFlushing := false, exitHandlerRan := false
    lastGlobalError := none, globalFixtureReplayed := false
    stdoutWrapperInstalled := true }

/-- JS `Set.prototype.add`: insert if absent (insertion order kept). -/
def setInsert (l : List Nat) (x : Nat) : List Nat :=
  if x ∈ l then l else l ++ [x]

/-- `activeSuites.size === 0 && activeHooks.size === 0 &&
activeTests.size === 0`. -/
def nothingActive (st : ReporterState) : Bool :=
  st.activeSuites.isEmpty && st.activeHooks.isEmpty && st.activeTests.isEmpty

/-- `inGlobalFixture`: nothing open and no real test yet (the spec's
"idle window"). -/
def isIdleWindow (st : ReporterState) : Bool :=
  nothingActive st && !st.hasRealTestStarted

/-- The `allure:runtimeMessage` listener installed by the constructor: the
event classifier.  `now` is `Date.now()` at delivery time. -/
def handleRuntimeMessage (st : ReporterState) (payload : RMsg) (now : Nat) :
    ReporterState :=
  if st.isFlushing then st
  else if isIdleWindow st then
    { st with globalSetupEvents := st.globalSetupEvents ++ [⟨payload, now⟩] }
  else if st.inBeforeAll || st.inAfterAll then
    { st with bufferedEvents := st.bufferedEvents ++ [⟨payload, now⟩] }
  else st

/-- `emitRuntimeMessage`: `process.emit` delivers the message synchronously,
re-entering our own listener; the message also goes to the sink, recorded
here as the output trace. -/
def emitRuntimeMessage (st : ReporterState) (m : RMsg) (now : Nat) :
    ReporterState × List RMsg :=
  (handleRuntimeMessage st m now, [m])

/-- One iteration of the replay loop of `flushBufferedEvents`. -/
def flushStep (now : Nat) (acc : ReporterState × List RMsg)
    (ev : BufferedEvent) : ReporterState × List RMsg :=
  let q := emitRuntimeMessage acc.1 ev.message now
  (q.1, acc.2 ++ q.2)

/-- `flushBufferedEvents`: replay a buffer's messages in order under the
`isFlushing` re-entrancy guard. -/
def flushBufferedEvents (st : ReporterState) (buffer : List BufferedEvent)
    (now : Nat) : ReporterState × List RMsg :=
  let st1 := { st with isFlushing := true }
  let p := buffer.foldl (flushStep now) (st1, ([] : List RMsg))
  ({ p.1 with isFlushing := false }, p.2)

def clearHookBuffer (st : ReporterState) : ReporterState :=
  { st with bufferedEvents := [] }

def clearGlobalSetupBuffer (st : ReporterState) : ReporterState :=
  { st with globalSetupEvents := [] }

/-- `clearBuffers` (note: it does not clear `hookConsoleOutput`). -/
def clearBuffers (st : ReporterState) : ReporterState :=
  { st with bufferedEvents := [], globalSetupEvents := []
            hookSuiteTitle := "", hookErrorOutput := "" }

def beforeAllMarker : String := "\"before all\" hook"
def afterAllMarker : String := "\"after all\" hook"

/-- The relevant fields of the hook stats object passed to `onHookEnd`. -/
structure HookInfo where
  handle : Nat
  title : String
  error : Option ErrVal
deriving DecidableEq, Repr

/-- The failure branch of `onHookEnd` (`hadError && !hasRealTestStarted`):
materialize a synthetic test holding the buffered evidence.  `st2` is the
state after the in-hook flags were dropped. -/
def materializeHookFailure (st2 : ReporterState) (title : String)
    (err : Option ErrVal) (now : Nat) : ReporterState × List RMsg :=
  let isBefore := containsStr title beforeAllMarker
  let hookType := if isBefore then "beforeAll" else "afterAll"
  let syntheticName :=
    st2.hookSuiteTitle ++ ": " ++ hookType ++ " hook failure"
  let ts := getBufferedMinMaxTimes now st2.bufferedEvents
  let p1 := emitRuntimeMessage st2 (.testStartMsg syntheticName ts.1) now
  let tagValue := if isBefore then "BeforeAllFailure" else "AfterAllFailure"
  let labels := [("tag", tagValue), ("parentSuite", st2.hookSuiteTitle)]
  let p2 := emitRuntimeMessage p1.1 (.metadata labels) now
  let p3 := flushBufferedEvents p2.1 p2.1.bufferedEvents now
  let p4 :=
    if trimStr p3.1.hookConsoleOutput ≠ "" then
      emitRuntimeMessage p3.1
        (.attachment_content (some "Hook Console Logs")
          (some (encodeBase64
            (".........Hook Console Logs.........\n\n" ++
              p3.1.hookConsoleOutput)))
          (some "text/plain") (some "base64")) now
    else (p3.1, [])
  let p5 := emitRuntimeMessage p4.1
    (.testEndMsg "broken" (getMessageAndTraceFromErrorLocal err) ts.2) now
  let st6 := { clearBuffers p5.1 with hookConsoleOutput := "" }
  (st6, p1.2 ++ p2.2 ++ p3.2 ++ p4.2 ++ p5.2)

/-- The flag updates at the top of `onHookEnd`
(`if (isBeforeAll) this.inBeforeAll = false` and the after-all twin). -/
def dropHookFlags (st0 : ReporterState) (title : String) : ReporterState :=
  let isBeforeAll := containsStr title beforeAllMarker
  let isAfterAll := containsStr title afterAllMarker
  let st1 := if isBeforeAll then { st0 with inBeforeAll := false } else st0
  if isAfterAll then { st1 with inAfterAll := false } else st1

/-- `onHookEnd`: hook-completion disposition.  Returns the updated state and
the trace of runtime messages emitted through the sink. -/
def onHookEnd (st : ReporterState) (hook : HookInfo) (now : Nat) :
    ReporterState × List RMsg :=
  let st0 := { st with activeHooks := st.activeHooks.erase hook.handle }
  let hadError := errTruthy hook.error
  let st2 := dropHookFlags st0 hook.title
  if !hadError then
    (if st2.bufferedEvents.length > 0 then clearHookBuffer st2 else st2, [])
  else if !st2.hasRealTestStarted then
    materializeHookFailure st2 hook.title hook.error now
  else
    (st2, [])

/-- `replayBufferedGlobalFixture`: flush buffered `mochaGlobalSetup` events
as a passing synthetic fixture. -/
def replayBufferedGlobalFixture (st : ReporterState) (now : Nat) :
    ReporterState × List RMsg :=
  if st.globalSetupEvents.length = 0 then (st, [])
  else
    let ts := getBufferedMinMaxTimes now st.globalSetupEvents
    let hookName := "\"before all\" hook: mochaGlobalSetup"
    let p1 := emitRuntimeMessage st (.hookStartMsg "before" hookName ts.1) now
    let p2 := flushBufferedEvents p1.1 p1.1.globalSetupEvents now
    let p3 := emitRuntimeMessage p2.1
      (.hookEndMsg "passed" ts.2 (ts.2 - ts.1)) now
    let st4 := clearGlobalSetupBuffer
      { p3.1 with globalFixtureReplayed := true }
    (st4, p1.2 ++ p2.2 ++ p3.2)

/-- `onSuiteStart`: track the suite and, when the global buffer is pending,
replay it once. -/
def onSuiteStart (st : ReporterState) (suite : Nat) (now : Nat) :
    ReporterState × List RMsg :=
  let st1 := { st with activeSuites := setInsert st.activeSuites suite }
  if !st1.globalFixtureReplayed && !st1.hasRealTestStarted &&
      st1.globalSetupEvents.length > 0 then
    replayBufferedGlobalFixture st1 now
  else (st1, [])

/-- `onSuiteEnd`. -/
def onSuiteEnd (st : ReporterState) (suite : Nat) : ReporterState :=
  { st with activeSuites := st.activeSuites.erase suite }

/-- The shapes a WebDriver command result can take for `takeScreenshot`. -/
inductive CommandResult where
  | missing
  | bare (s : String)
  | wrapped (value : String)
  | malformed
deriving DecidableEq, Repr

/-- The base64 extraction of `onAfterCommand` (bare string, or object with a
string `value` field; anything else yields `undefined`). -/
def extractBase64 : CommandResult → Option String
  | .bare s => some s
  | .wrapped v => some v
  | _ => none

/-- `onAfterCommand`: manual screenshot bridge for the setup window. -/
def onAfterCommand (st : ReporterState) (cmd : Option String)
    (result : CommandResult) (now : Nat) : ReporterState :=
  let inGlobalFixture := isIdleWindow st
  if !(st.inBeforeAll || st.inAfterAll || inGlobalFixture) then st
  else if cmd ≠ some "takeScreenshot" then st
  else
    match extractBase64 result with
    | none => st
    | some base64 =>
      if base64 = "" then st
      else
        let ev : BufferedEvent :=
          ⟨.attachment_content (some "Screenshot") (some base64)
            (some "image/png") (some "base64"), now⟩
        if inGlobalFixture then
          { st with globalSetupEvents := st.globalSetupEvents ++ [ev] }
        else
          { st with bufferedEvents := st.bufferedEvents ++ [ev] }

/-- A run of `n` equals signs (the banner characters around prepended hook
logs; spelled out as repeats to keep the string fabric readable). -/
def eqRun (n : Nat) : String := String.mk (List.replicate n ('='))

/-- A chunk passed to `process.stdout.write`: a string or raw bytes. -/
inductive Chunk where
  | str (s : String)
  | bytes (b : List Nat)
deriving DecidableEq, Repr

/-- Minimal UTF-8 decoder modelling `Buffer.from(chunk).toString('utf8')`.
Invalid sequences decode to U+FFFD (Node is likewise lossy; the exact
replacement policy is irrelevant to every property proved here). -/
def decodeUtf8Bytes : List Nat → List Char
  | [] => []
  | b :: rest =>
    if b < 128 then Char.ofNat b :: decodeUtf8Bytes rest
    else if b < 224 then
      match rest with
      | b2 :: rest2 =>
          Char.ofNat ((b % 32) * 64 + b2 % 64) :: decodeUtf8Bytes rest2
      | [] => [Char.ofNat 65533]
    else if b < 240 then
      match rest with
      | b2 :: b3 :: rest3 =>
          Char.ofNat ((b % 16) * 4096 + (b2 % 64) * 64 + b3 % 64) ::
            decodeUtf8Bytes rest3
      | _ => [Char.ofNat 65533]
    else
      match rest with
      | b2 :: b3 :: b4 :: rest4 =>
          Char.ofNat ((b % 8) * 262144 + (b2 % 64) * 4096 +
            (b3 % 64) * 64 + b4 % 64) :: decodeUtf8Bytes rest4
      | _ => [Char.ofNat 65533]
termination_by l => l.length
decreasing_by all_goals (simp_all [List.length]; try omega)

/-- `typeof chunk === 'string' ? chunk : Buffer.from(chunk).toString()`. -/
def chunkToString : Chunk → String
  | .str s => s
  | .bytes b => String.mk (decodeUtf8Bytes b)

/-- The second argument of a `write` call: absent, an encoding name, or a
callback (JS inspects it with `typeof encoding === 'function'`).
Callbacks are identified by an opaque id. -/
inductive EncArg where
  | noneArg
  | enc (e : String)
  | cbfun (id : Nat)
deriving DecidableEq, Repr

/-- One call forwarded to the previously installed downstream writer:
(chunk, encoding argument, callback argument). -/
structure ForwardCall where
  chunk : Chunk
  encoding : Option String
  callback : Option Nat
deriving DecidableEq, Repr

/-- The `process.stdout.write` replacement installed by
`wrapStdoutAndStderr`.  Returns the updated state and the list of calls made
to the saved downstream writer (`allureStdoutWrapper`), in order. -/
def stdoutWrite (st : ReporterState) (chunk : Chunk) (encoding : EncArg)
    (cb : Option Nat) : ReporterState × List ForwardCall :=
  let str := chunkToString chunk
  let st1 :=
    if st.inBeforeAll || st.inAfterAll || !st.hasRealTestStarted then
      { st with hookConsoleOutput := st.hookConsoleOutput ++ str }
    else st
  let p2 :=
    if st1.hasRealTestStarted && !st1.hookLogsPrepended &&
        trimStr st1.hookConsoleOutput ≠ "" && !containsStr str "[DEBUG]" then
      let banner :=
        if st1.stdoutWrapperInstalled then
          [ForwardCall.mk
             (.str ("\n" ++ eqRun 10 ++ " Setup Hooks Console Output " ++
               eqRun 10))
             none none,
           ForwardCall.mk (.str st1.hookConsoleOutput) none none,
           ForwardCall.mk (.str (eqRun 49 ++ "\n\n")) none none]
        else []
      ({ st1 with hookLogsPrepended := true, hookConsoleOutput := "" },
       banner)
    else (st1, [])
  let fwd :=
    if p2.1.stdoutWrapperInstalled then
      match encoding with
      | .cbfun f => [ForwardCall.mk chunk none (some f)]
      | .enc e => [ForwardCall.mk chunk (some e) cb]
      | .noneArg => [ForwardCall.mk chunk none cb]
    else []
  (p2.1, p2.2 ++ fwd)

/-- The `process.stderr.write` replacement (capture into
`hookErrorOutput`; no prepend logic). -/
def stderrWrite (st : ReporterState) (chunk : Chunk) (encoding : EncArg)
    (cb : Option Nat) : ReporterState × List ForwardCall :=
  let str := chunkToString chunk
  let st1 :=
    if st.inBeforeAll || st.inAfterAll || !st.hasRealTestStarted then
      { st with hookErrorOutput := st.hookErrorOutput ++ str }
    else st
  let fwd :=
    if st1.stdoutWrapperInstalled then
      match encoding with
      | .cbfun f => [ForwardCall.mk chunk none (some f)]
      | .enc e => [ForwardCall.mk chunk (some e) cb]
      | .noneArg => [ForwardCall.mk chunk none cb]
    else []
  (st1, fwd)

/-- An attachment reference inside a result record
(`{ name, source, type }`). -/
structure AttachmentRef where
  name : String
  source : String
  ctype : String
deriving DecidableEq, Repr

/-- A step of the synthetic result record built by the exit handler.
`status`/`stage` are fixed at `'passed'`/`'finished'` on creation in the
source and never change, so they are omitted here. -/
inductive Step where
  | mk (name : String) (start : Nat) (stop : Nat) (substeps : List Step)
      (attachments : List AttachmentRef)

def Step.name : Step → String
  | .mk n _ _ _ _ => n

def Step.start : Step → Nat
  | .mk _ s _ _ _ => s

def Step.stop : Step → Nat
  | .mk _ _ e _ _ => e

def Step.substeps : Step → List Step
  | .mk _ _ _ sub _ => sub

def Step.attachments : Step → List AttachmentRef
  | .mk _ _ _ _ a => a

/-- Append a child to a step's substeps. -/
def withChild (p f : Step) : Step :=
  .mk p.name p.start p.stop (p.substeps ++ [f]) p.attachments

/-- Append an attachment to a step. -/
def withAttachment (p : Step) (a : AttachmentRef) : Step :=
  .mk p.name p.start p.stop p.substeps (p.attachments ++ [a])

/-- An attachment file queued for writing
(`attachmentsToWrite` entries; the byte content is carried as the
still-encoded string, since nothing later inspects the bytes). -/
structure AttachmentFile where
  source : String
  content : Option String
  ctype : String
deriving DecidableEq, Repr

/-- `guessExt` from the source. -/
def guessExt (contentType : String) : String :=
  let ct := lowerStr contentType
  if containsStr ct "png" then ".png"
  else if containsStr ct "jpeg" || containsStr ct "jpg" then ".jpg"
  else if containsStr ct "gif" then ".gif"
  else if containsStr ct "webp" then ".webp"
  else if containsStr ct "json" then ".json"
  else if containsStr ct "text" || containsStr ct "plain" then ".txt"
  else ""

/-- Collapse whitespace runs to one `_`; the flag records whether the
previous character was whitespace. -/
def sanitizeGo : Bool → List Char → List Char
  | _, [] => []
  | prevWs, c :: rest =>
    if c.isWhitespace then
      if prevWs then sanitizeGo true rest
      else '_' :: sanitizeGo true rest
    else c :: sanitizeGo false rest

/-- `.replace(/\s+/g, '_')`. -/
def sanitizeName (s : String) : String :=
  String.mk (sanitizeGo false s.toList)

/-- State of the exit handler's step-forest loop: finished roots, the open
step stack (top first), and the attachment files queued so far.

The source mutates shared step objects in place (a step is inserted into
its parent's `steps` array when pushed and patched when popped); this pure
version defers the parent insertion to pop / end-of-list, which yields the
same final forest because the stack discipline makes every child's pop
precede its next sibling's push. -/
structure BuildState where
  roots : List Step
  stack : List Step
  files : List AttachmentFile

/-- Close out a popped step into its parent (or the root list). -/
def attachPopped (f : Step) (rest : List Step) (roots : List Step) :
    List Step × List Step :=
  match rest with
  | p :: rs => (roots, withChild p f :: rs)
  | [] => (roots ++ [f], [])

/-- One iteration of the exit handler's `for (const ev of pendingEvents)`
loop. -/
def applyExitEvent (uuid : String) (acc : BuildState) (ev : BufferedEvent) :
    BuildState :=
  match ev.message with
  | .step_start nm =>
    let step : Step := .mk (nm.getD "Step") ev.capturedAt ev.capturedAt [] []
    { acc with stack := step :: acc.stack }
  | .step_stop stopOpt =>
    match acc.stack, stopOpt with
    | top :: rest, some sp =>
      if sp ≠ 0 then
        let q := attachPopped
          (.mk top.name top.start sp top.substeps top.attachments) rest
          acc.roots
        { acc with roots := q.1, stack := q.2 }
      else acc
    | _, _ => acc
  | .attachment_content nm content ctype _enc =>
    let source := uuid ++ "-" ++ sanitizeName (nm.getD "attachment") ++
      "-" ++ toString (acc.files.length + 1)
    let ctypeV := ctype.getD "application/octet-stream"
    let files := acc.files ++ [⟨source, content, ctypeV⟩]
    let att : AttachmentRef :=
      ⟨nm.getD "Attachment", source ++ guessExt ctypeV, ctypeV⟩
    match acc.stack with
    | top :: rest =>
      { acc with stack := withAttachment top att :: rest, files := files }
    | [] =>
      { acc with
          roots := acc.roots ++
            [.mk "Attachment" ev.capturedAt ev.capturedAt [] [att]]
          files := files }
  | _ => acc

/-- Fold the still-open stack into one root step, leaving every step's
`stop` untouched (the source never revisits unterminated steps). -/
def collapseStack : Step → List Step → Step
  | f, [] => f
  | f, p :: rs => collapseStack (withChild p f) rs

/-- Final forest after the loop: open steps end up under their parents with
their creation timestamps intact. -/
def finalizeStack (roots : List Step) : List Step → List Step
  | [] => roots
  | f :: rest => roots ++ [collapseStack f rest]

/-- The exit handler's step-forest and attachment-file construction over a
flat buffered-event list. -/
def buildStepsFromEvents (uuid : String) (events : List BufferedEvent) :
    List Step × List AttachmentFile :=
  let b := events.foldl (applyExitEvent uuid) ⟨[], [], []⟩
  (finalizeStack b.roots b.stack, b.files)

/-- JS `\w` character class. -/
def isWordChar (c : Char) : Bool := c.isAlphanum || c = '_'

/-- Does the character list start with `(word)\b\s*:` for the given word? -/
def headerWordAt (w : String) (cs : List Char) : Bool :=
  listStarts w.toList cs &&
    ((cs.drop w.length).dropWhile Char.isWhitespace).head? = some ':'

/-- Scan a line for `/\b(AssertionError|Error)\b\s*[:]/`; the flag records
whether the previous character was a word character (for the leading
boundary). -/
def scanErrorHeader : Bool → List Char → Bool
  | _, [] => false
  | prevWord, c :: rest =>
    (!prevWord && (headerWordAt "AssertionError" (c :: rest) ||
       headerWordAt "Error" (c :: rest))) ||
    scanErrorHeader (isWordChar c) rest

def lineHasErrorHeader (l : String) : Bool :=
  scanErrorHeader false l.toList

/-- `/^\s*at\s+/`: optional leading whitespace, `at`, one whitespace. -/
def isStackFrameLine (l : String) : Bool :=
  let cs := l.toList.dropWhile Char.isWhitespace
  listStarts ("at").toList cs &&
    match (cs.drop 2).head? with
    | some c => c.isWhitespace
    | none => false

/-- `deriveStatusDetailsFromConsole` from the source. -/
def deriveStatusDetailsFromConsole (consoleOut : String) :
    Option StatusDetails :=
  if consoleOut = "" || trimStr consoleOut = "" then none
  else
    let lines := splitLines consoleOut
    match lines.findIdx? lineHasErrorHeader with
    | none => none
    | some startIdx =>
      let lineAtIndex := lines.getD startIdx ""
      if lineAtIndex = "" then none
      else
        let messageLine := trimStr lineAtIndex
        let stackLines := (lines.drop (startIdx + 1)).filter
          (fun ln => decide (ln ≠ "") && isStackFrameLine ln)
        some ⟨some messageLine,
          some (String.intercalate "\n" (messageLine :: stackLines))⟩

/-- The synthetic result record the exit handler persists
(`<uuid>-result.json`; constant fields `uuid`/`stage`/`parameters`/`links`
are determined by `uuid` and omitted). -/
structure FallbackResult where
  name : String
  historyId : String
  status : String
  statusDetails : StatusDetails
  start : Nat
  stop : Nat
  steps : List Step
  attachments : List AttachmentRef
  labels : List (String × String)

/-- The combined stdout/stderr log text assembled by the exit handler. -/
def combinedLogs (stdoutText stderrText : String) : String :=
  String.intercalate "\n"
    (([if trimStr stdoutText ≠ "" then
         some ("===== STDOUT =====\n" ++ stdoutText) else none,
       if trimStr stderrText ≠ "" then
         some ("\n===== STDERR =====\n" ++ stderrText) else none] :
       List (Option String)).filterMap id)

/-- The record and attachment files the exit handler persists, as a
function of everything the `try` block reads. -/
def fallbackRecord (uuid : String) (pid now : Nat)
    (pendingEvents : List BufferedEvent)
    (stdoutText stderrText : String)
    (lastErr : Option StatusDetails) :
    FallbackResult × List AttachmentFile :=
  let ts := getBufferedMinMaxTimes now pendingEvents
  let built := buildStepsFromEvents uuid pendingEvents
  let logs := combinedLogs stdoutText stderrText
  let withConsole :=
    if trimStr logs ≠ "" then
      (some (AttachmentRef.mk "Console Output"
         (uuid ++ "-console-output.txt") "text/plain"),
       built.2 ++ [⟨uuid ++ "-console-output", some logs, "text/plain"⟩])
    else ((none : Option AttachmentRef), built.2)
  let statusDetails :=
    match lastErr with
    | some e => e
    | none =>
      match deriveStatusDetailsFromConsole
          (if stderrText ≠ "" then stderrText else stdoutText) with
      | some d => d
      | none =>
        ⟨some "mochaGlobalSetup/Teardown failed before tests could run",
         none⟩
  let result : FallbackResult :=
    { name := "Global fixture failure"
      historyId := "mochaGlobalSetup:" ++ toString pid
      status := "broken"
      statusDetails := statusDetails
      start := ts.1
      stop := ts.2
      steps := built.1
      attachments :=
        match withConsole.1 with
        | some a => [a]
        | none => []
      labels := [("tag", "GlobalFixtureFailure"),
                 ("parentSuite", "(global)")] }
  (result, withConsole.2)

/-- The `process.on('exit', ...)` handler: the at-most-once fallback
materializer.  `uuid` models `randomUUID()`, `pid` models `process.pid`,
`now` models `Date.now()`.  Returns the updated state and, when a record
was persisted, the record plus the attachment files written next to it.
Filesystem errors are swallowed by the source's `try`/`catch`; the pure
model has none.  The `finally` clause runs `clearBuffers`. -/
def processExit (st : ReporterState) (uuid : String) (pid : Nat)
    (now : Nat) : ReporterState × Option (FallbackResult ×
      List AttachmentFile) :=
  if st.exitHandlerRan then (st, none)
  else
    let st1 := { st with exitHandlerRan := true }
    if st1.hasRealTestStarted then (st1, none)
    else
      let pendingEvents :=
        if st1.globalSetupEvents.length > 0 then st1.globalSetupEvents
        else st1.bufferedEvents
      if pendingEvents.length = 0 && trimStr st1.hookConsoleOutput = "" then
        (st1, none)
      else
        (clearBuffers st1,
         some (fallbackRecord uuid pid now pendingEvents
           st1.hookConsoleOutput st1.hookErrorOutput st1.lastGlobalError))

/-- Run the exit handler repeatedly (the event can fire more than once);
collects each firing's persistence outcome. -/
def runExits (st : ReporterState) :
    List (String × Nat × Nat) →
      ReporterState × List (Option (FallbackResult × List AttachmentFile))
  | [] => (st, [])
  | (u, p, n) :: rest =>
    let q := processExit st u p n
    let r := runExits q.1 rest
    (r.1, q.2 :: r.2)

/-! ## Helper lemmas -/

lemma minmaxStep_some (m b : Nat) (e : BufferedEvent) :
    minmaxStep (some m, b) e =
      (some (min m e.capturedAt), max b e.capturedAt) := by
  show ((if e.capturedAt < m then some e.capturedAt else some m : Option Nat),
        if e.capturedAt > b then e.capturedAt else b) = _
  rw [Prod.mk.injEq]
  refine ⟨?_, ?_⟩ <;> split <;> simp <;> omega

lemma foldl_minmaxStep_some (l : List BufferedEvent) (m b : Nat) :
    l.foldl minmaxStep (some m, b) =
      (some (l.foldl (fun a e => min a e.capturedAt) m),
       l.foldl (fun a e => max a e.capturedAt) b) := by
  induction l generalizing m b with
  | nil => rfl
  | cons e rest ih =>
    simp only [List.foldl, minmaxStep_some]
    exact ih (min m e.capturedAt) (max b e.capturedAt)

lemma foldl_min_le_init (l : List BufferedEvent) (m : Nat) :
    l.foldl (fun a e => min a e.capturedAt) m ≤ m := by
  induction l generalizing m with
  | nil => simp
  | cons e rest ih =>
    simp only [List.foldl]
    exact le_trans (ih (min m e.capturedAt)) (Nat.min_le_left _ _)

lemma foldl_min_le_mem (l : List BufferedEvent) :
    ∀ (m : Nat) (x : BufferedEvent), x ∈ l →
      l.foldl (fun a e => min a e.capturedAt) m ≤ x.capturedAt := by
  induction l with
  | nil => intro m x hx; cases hx
  | cons e rest ih =>
    intro m x hx
    simp only [List.foldl]
    rcases List.mem_cons.mp hx with h | h
    · subst h
      exact le_trans (foldl_min_le_init rest _) (Nat.min_le_right _ _)
    · exact ih _ x h

lemma foldl_min_attained (l : List BufferedEvent) (m : Nat) :
    l.foldl (fun a e => min a e.capturedAt) m = m ∨
      ∃ e ∈ l, l.foldl (fun a e => min a e.capturedAt) m = e.capturedAt := by
  induction l generalizing m with
  | nil => exact Or.inl rfl
  | cons e rest ih =>
    simp only [List.foldl]
    rcases ih (min m e.capturedAt) with h | ⟨x, hx, hfx⟩
    · rcases Nat.le_total m e.capturedAt with hle | hle
      · exact Or.inl (by rw [h]; exact Nat.min_eq_left hle)
      · exact Or.inr ⟨e, List.mem_cons_self .., by
          rw [h]; exact Nat.min_eq_right hle⟩
    · exact Or.inr ⟨x, List.mem_cons_of_mem _ hx, hfx⟩

lemma foldl_max_ge_init (l : List BufferedEvent) (b : Nat) :
    b ≤ l.foldl (fun a e => max a e.capturedAt) b := by
  induction l generalizing b with
  | nil => simp
  | cons e rest ih =>
    simp only [List.foldl]
    exact le_trans (Nat.le_max_left _ _) (ih (max b e.capturedAt))

lemma foldl_max_ge_mem (l : List BufferedEvent) :
    ∀ (b : Nat) (x : BufferedEvent), x ∈ l →
      x.capturedAt ≤ l.foldl (fun a e => max a e.capturedAt) b := by
  induction l with
  | nil => intro b x hx; cases hx
  | cons e rest ih =>
    intro b x hx
    simp only [List.foldl]
    rcases List.mem_cons.mp hx with h | h
    · subst h
      exact le_trans (Nat.le_max_right _ _) (foldl_max_ge_init rest _)
    · exact ih _ x h

lemma foldl_max_attained (l : List BufferedEvent) (b : Nat) :
    l.foldl (fun a e => max a e.capturedAt) b = b ∨
      ∃ e ∈ l, l.foldl (fun a e => max a e.capturedAt) b = e.capturedAt := by
  induction l generalizing b with
  | nil => exact Or.inl rfl
  | cons e rest ih =>
    simp only [List.foldl]
    rcases ih (max b e.capturedAt) with h | ⟨x, hx, hfx⟩
    · rcases Nat.le_total b e.capturedAt with hle | hle
      · exact Or.inr ⟨e, List.mem_cons_self .., by
          rw [h]; exact Nat.max_eq_right hle⟩
      · exact Or.inl (by rw [h]; exact Nat.max_eq_left hle)
    · exact Or.inr ⟨x, List.mem_cons_of_mem _ hx, hfx⟩

/-- Closed form of `getBufferedMinMaxTimes` on a non-empty list. -/
lemma getBufferedMinMaxTimes_cons (now : Nat) (e : BufferedEvent)
    (rest : List BufferedEvent) :
    getBufferedMinMaxTimes now (e :: rest) =
      (rest.foldl (fun a x => min a x.capturedAt) e.capturedAt,
       rest.foldl (fun a x => max a x.capturedAt) e.capturedAt) := by
  unfold getBufferedMinMaxTimes
  simp only [List.length_cons, List.foldl]
  have hstep : minmaxStep ((none : Option Nat), 0) e =
      (some e.capturedAt, e.capturedAt) := by
    show ((some e.capturedAt : Option Nat),
          if e.capturedAt > 0 then e.capturedAt else 0) = _
    rw [Prod.mk.injEq]
    exact ⟨rfl, by split <;> omega⟩
  rw [if_neg (by omega), hstep, foldl_minmaxStep_some]
  simp only []
  split
  next hz =>
    have hmin := foldl_min_le_init rest e.capturedAt
    have hmax := foldl_max_ge_init rest e.capturedAt
    have : e.capturedAt = 0 := by omega
    have : rest.foldl (fun a x => min a x.capturedAt) e.capturedAt = 0 := by
      omega
    simp_all
  next => rfl

/-! ## C8: timing reconstructor -/

/-- C8: for every non-empty buffered-event list, the reconstructed `start`
is the minimum captured timestamp, `stop` is the maximum, and
`start ≤ stop`; for the empty list both equal the call time `now`. -/
theorem c8_timing_reconstructor (now : Nat) (events : List BufferedEvent) :
    (events = [] → getBufferedMinMaxTimes now events = (now, now)) ∧
    (events ≠ [] →
      (∀ e ∈ events,
        (getBufferedMinMaxTimes now events).1 ≤ e.capturedAt ∧
          e.capturedAt ≤ (getBufferedMinMaxTimes now events).2) ∧
      (∃ e ∈ events,
        e.capturedAt = (getBufferedMinMaxTimes now events).1) ∧
      (∃ e ∈ events,
        e.capturedAt = (getBufferedMinMaxTimes now events).2) ∧
      (getBufferedMinMaxTimes now events).1 ≤
        (getBufferedMinMaxTimes now events).2) := by
  constructor
  · intro h; subst h; rfl
  · intro hne
    match events with
    | [] => exact absurd rfl hne
    | e :: rest =>
      rw [getBufferedMinMaxTimes_cons]
      refine ⟨?_, ?_, ?_, ?_⟩
      · intro x hx
        rcases List.mem_cons.mp hx with h | h
        · subst h
          exact ⟨foldl_min_le_init rest _, foldl_max_ge_init rest _⟩
        · exact ⟨foldl_min_le_mem rest _ x h, foldl_max_ge_mem rest _ x h⟩
      · rcases foldl_min_attained rest e.capturedAt with h | ⟨x, hx, hfx⟩
        · exact ⟨e, List.mem_cons_self .., h.symm⟩
        · exact ⟨x, List.mem_cons_of_mem _ hx, hfx.symm⟩
      · rcases foldl_max_attained rest e.capturedAt with h | ⟨x, hx, hfx⟩
        · exact ⟨e, List.mem_cons_self .., h.symm⟩
        · exact ⟨x, List.mem_cons_of_mem _ hx, hfx.symm⟩
      · exact le_trans (foldl_min_le_init rest _) (foldl_max_ge_init rest _)

/-- Witness for C8 at concrete inputs. -/
theorem c8_timing_reconstructor_witness :
    getBufferedMinMaxTimes 5 [] = (5, 5) ∧
    (getBufferedMinMaxTimes 5 [⟨.other "a", 9⟩, ⟨.other "b", 3⟩]).1 ≤
      (getBufferedMinMaxTimes 5 [⟨.other "a", 9⟩, ⟨.other "b", 3⟩]).2 :=
  ⟨(c8_timing_reconstructor 5 []).1 rfl,
   ((c8_timing_reconstructor 5 [⟨.other "a", 9⟩, ⟨.other "b", 3⟩]).2
     (by decide)).2.2.2⟩

/-! ## C2: event classifier and the flushing guard -/

lemma handle_flushing (st : ReporterState) (p : RMsg) (now : Nat)
    (h : st.isFlushing = true) : handleRuntimeMessage st p now = st := by
  simp [handleRuntimeMessage, h]

lemma flush_fold (now : Nat) (buf : List BufferedEvent)
    (st : ReporterState) (h : st.isFlushing = true) (out : List RMsg) :
    buf.foldl (flushStep now) (st, out) =
      (st, out ++ buf.map BufferedEvent.message) := by
  induction buf generalizing out with
  | nil => simp
  | cons e rest ih =>
    have hstep : flushStep now (st, out) e = (st, out ++ [e.message]) := by
      simp [flushStep, emitRuntimeMessage, handle_flushing st _ now h]
    rw [List.foldl_cons, hstep, ih (out ++ [e.message])]
    simp

/-- `flushBufferedEvents` only toggles the guard and re-emits the snapshot:
no buffer is modified by a replay pass. -/
lemma flushBufferedEvents_spec (st : ReporterState)
    (buf : List BufferedEvent) (now : Nat) :
    flushBufferedEvents st buf now =
      ({ st with isFlushing := false }, buf.map BufferedEvent.message) := by
  show ({ (buf.foldl (flushStep now)
      ({ st with isFlushing := true }, ([] : List RMsg))).1 with
        isFlushing := false },
      (buf.foldl (flushStep now)
        ({ st with isFlushing := true }, ([] : List RMsg))).2) = _
  rw [flush_fold now buf { st with isFlushing := true } rfl []]
  simp

/-- C2: the classifier's three-way split — events arriving during a flush
are dropped with no buffer change; otherwise idle-window events go to the
GlobalBuffer, setup-hook events go to the HookBuffer, and anything else
leaves the reporter state untouched (pure pass-through); and a whole
replay pass never feeds an emitted event back into either buffer. -/
theorem c2_classifier_routing (st : ReporterState) (p : RMsg) (now : Nat)
    (buf : List BufferedEvent) :
    (st.isFlushing = true → handleRuntimeMessage st p now = st) ∧
    (st.isFlushing = false → isIdleWindow st = true →
      (handleRuntimeMessage st p now).globalSetupEvents =
        st.globalSetupEvents ++ [⟨p, now⟩] ∧
      (handleRuntimeMessage st p now).bufferedEvents = st.bufferedEvents) ∧
    (st.isFlushing = false → isIdleWindow st = false →
      (st.inBeforeAll || st.inAfterAll) = true →
      (handleRuntimeMessage st p now).bufferedEvents =
        st.bufferedEvents ++ [⟨p, now⟩] ∧
      (handleRuntimeMessage st p now).globalSetupEvents =
        st.globalSetupEvents) ∧
    (st.isFlushing = false → isIdleWindow st = false →
      (st.inBeforeAll || st.inAfterAll) = false →
      handleRuntimeMessage st p now = st) ∧
    ((flushBufferedEvents st buf now).1.bufferedEvents =
        st.bufferedEvents ∧
      (flushBufferedEvents st buf now).1.globalSetupEvents =
        st.globalSetupEvents ∧
      (flushBufferedEvents st buf now).2 =
        buf.map BufferedEvent.message) := by
  refine ⟨?_, ?_, ?_, ?_, ?_⟩
  · intro h; exact handle_flushing st p now h
  · intro h1 h2
    simp [handleRuntimeMessage, h1, h2]
  · intro h1 h2 h3
    constructor <;> simp [handleRuntimeMessage, h1, h2, h3]
  · intro h1 h2 h3
    simp [handleRuntimeMessage, h1, h2, h3]
  · rw [flushBufferedEvents_spec]
    exact ⟨rfl, rfl, rfl⟩

/-- Witness for C2: a message arriving in the idle window is appended to
the GlobalBuffer. -/
theorem c2_classifier_routing_witness :
    (handleRuntimeMessage initialState (.other "m") 7).globalSetupEvents =
      initialState.globalSetupEvents ++ [⟨.other "m", 7⟩] ∧
    (handleRuntimeMessage initialState (.other "m") 7).bufferedEvents =
      initialState.bufferedEvents :=
  (c2_classifier_routing initialState (.other "m") 7 []).2.1 rfl (by decide)

/-! ## C6: the process-exit fallback runs at most once -/

lemma processExit_sets_flag (st : ReporterState) (u : String) (p n : Nat) :
    (processExit st u p n).1.exitHandlerRan = true := by
  unfold processExit
  split
  next h => exact h
  next =>
    try dsimp only
    split
    next => rfl
    next =>
      try dsimp only
      split <;> split <;> rfl

lemma processExit_ran (st : ReporterState) (u : String) (p n : Nat)
    (h : st.exitHandlerRan = true) : processExit st u p n = (st, none) := by
  unfold processExit
  rw [if_pos h]

lemma runExits_flagged :
    ∀ (l : List (String × Nat × Nat)) (st : ReporterState),
      st.exitHandlerRan = true →
      ((runExits st l).2.filter Option.isSome) = [] := by
  intro l
  induction l with
  | nil => intro st h; rfl
  | cons f rest ih =>
    intro st h
    obtain ⟨u, p, n⟩ := f
    simp only [runExits, processExit_ran st u p n h]
    rw [List.filter_cons]
    simp [ih st h]

/-- C6: no matter how many times the process-exit event fires, at most one
fallback record is synthesized and persisted. -/
theorem c6_exit_fallback_at_most_once (st : ReporterState)
    (fires : List (String × Nat × Nat)) :
    (((runExits st fires).2.filter Option.isSome)).length ≤ 1 := by
  match fires with
  | [] => simp [runExits]
  | (u, p, n) :: rest =>
    have hflag := processExit_sets_flag st u p n
    have hrest := runExits_flagged rest (processExit st u p n).1 hflag
    simp only [runExits]
    rw [List.filter_cons]
    split
    · rw [hrest]
      simp
    · rw [hrest]
      simp

/-! ## C10: exit fallback prefers the GlobalBuffer and clears both -/

lemma processExit_global (st : ReporterState) (uuid : String)
    (pid now : Nat) (hRan : st.exitHandlerRan = false)
    (hStart : st.hasRealTestStarted = false)
    (hG : st.globalSetupEvents ≠ []) :
    processExit st uuid pid now =
      (clearBuffers { st with exitHandlerRan := true },
       some (fallbackRecord uuid pid now st.globalSetupEvents
         st.hookConsoleOutput st.hookErrorOutput st.lastGlobalError)) := by
  have hlen : 0 < st.globalSetupEvents.length := List.length_pos.mpr hG
  have hlen2 : ¬st.globalSetupEvents.length = 0 := by omega
  simp only [processExit, hRan, hStart]
  simp [hlen, hlen2]

/-- C10: when both buffers are non-empty at process exit (no real test
started, handler not yet run), the persisted record is built from the
GlobalBuffer alone — the HookBuffer's contents are silently omitted (the
record does not depend on them at all) — and both buffers are cleared
afterwards. -/
theorem c10_exit_prefers_global_buffer (st : ReporterState)
    (b1 b2 : List BufferedEvent) (uuid : String) (pid now : Nat)
    (hRan : st.exitHandlerRan = false)
    (hStart : st.hasRealTestStarted = false)
    (hG : st.globalSetupEvents ≠ []) :
    (processExit { st with bufferedEvents := b1 } uuid pid now).2 =
      (processExit { st with bufferedEvents := b2 } uuid pid now).2 ∧
    ((processExit st uuid pid now).2).map (fun r => r.1.steps) =
      some (buildStepsFromEvents uuid st.globalSetupEvents).1 ∧
    (processExit st uuid pid now).1.bufferedEvents = [] ∧
    (processExit st uuid pid now).1.globalSetupEvents = [] := by
  have h1 := processExit_global { st with bufferedEvents := b1 } uuid pid
    now hRan hStart hG
  have h2 := processExit_global { st with bufferedEvents := b2 } uuid pid
    now hRan hStart hG
  have h0 := processExit_global st uuid pid now hRan hStart hG
  refine ⟨?_, ?_, ?_, ?_⟩
  · rw [h1, h2]
  · rw [h0]
    rfl
  · rw [h0]
    rfl
  · rw [h0]
    rfl

/-- Witness for C10 at a concrete state holding one event in each buffer. -/
theorem c10_exit_prefers_global_buffer_witness :
    (processExit { initialState with
        bufferedEvents := [⟨.step_start (some "h"), 4⟩],
        globalSetupEvents := [⟨.step_start (some "g"), 2⟩] } "u" 1 9).2 =
      (processExit { initialState with
        bufferedEvents := [],
        globalSetupEvents := [⟨.step_start (some "g"), 2⟩] } "u" 1 9).2 ∧
    (processExit { initialState with
        globalSetupEvents := [⟨.step_start (some "g"), 2⟩] } "u" 1
      9).1.bufferedEvents = [] := by
  have h := c10_exit_prefers_global_buffer
    { initialState with globalSetupEvents := [⟨.step_start (some "g"), 2⟩] }
    [⟨.step_start (some "h"), 4⟩] [] "u" 1 9 rfl rfl (by decide)
  exact ⟨h.1, h.2.2.1⟩

/-! ## C9: screenshot bridge -/

def screenshotEvent (s : String) (now : Nat) : BufferedEvent :=
  ⟨.attachment_content (some "Screenshot") (some s) (some "image/png")
    (some "base64"), now⟩

/-- C9: a missing or malformed screenshot payload is dropped with neither
buffer modified (and, the bridge being a total function, no error
propagates); a valid non-empty bare-string or wrapped payload of the
`takeScreenshot` command is appended as exactly one synthesized attachment
event to the GlobalBuffer in the idle window, or to the HookBuffer inside a
setup hook. -/
theorem c9_screenshot_bridge (st : ReporterState) (cmd : Option String)
    (result : CommandResult) (now : Nat) :
    (extractBase64 result = none → onAfterCommand st cmd result now = st) ∧
    (∀ s, extractBase64 result = some s → s ≠ "" →
      cmd = some "takeScreenshot" →
      (isIdleWindow st = true →
        (onAfterCommand st cmd result now).globalSetupEvents =
          st.globalSetupEvents ++ [screenshotEvent s now] ∧
        (onAfterCommand st cmd result now).bufferedEvents =
          st.bufferedEvents) ∧
      (isIdleWindow st = false → (st.inBeforeAll || st.inAfterAll) = true →
        (onAfterCommand st cmd result now).bufferedEvents =
          st.bufferedEvents ++ [screenshotEvent s now] ∧
        (onAfterCommand st cmd result now).globalSetupEvents =
          st.globalSetupEvents)) := by
  constructor
  · intro h
    simp [onAfterCommand, h]
  · intro s hs hne hcmd
    constructor
    · intro hidle
      constructor <;>
        simp [onAfterCommand, hcmd, hs, hne, hidle, screenshotEvent]
    · intro hidle hhook
      have hx : ¬(st.inBeforeAll = false ∧ st.inAfterAll = false) := by
        intro hc
        rw [hc.1, hc.2] at hhook
        cases hhook
      constructor <;>
        simp [onAfterCommand, hcmd, hs, hne, hidle, hx, screenshotEvent]

/-- Witness for C9: an idle-window screenshot lands in the GlobalBuffer;
a malformed payload is dropped. -/
theorem c9_screenshot_bridge_witness :
    (onAfterCommand initialState (some "takeScreenshot")
        (.wrapped "QUJD") 6).globalSetupEvents =
      initialState.globalSetupEvents ++ [screenshotEvent "QUJD" 6] ∧
    onAfterCommand initialState (some "takeScreenshot") .malformed 6 =
      initialState := by
  refine ⟨?_, ?_⟩
  · exact (((c9_screenshot_bridge initialState (some "takeScreenshot")
      (.wrapped "QUJD") 6).2 "QUJD" rfl (by decide) rfl).1 (by decide)).1
  · exact (c9_screenshot_bridge initialState (some "takeScreenshot")
      .malformed 6).1 rfl

/-! ## C4: suite-start replay of the GlobalBuffer is idempotent -/

lemma handle_preserves_core (st : ReporterState) (p : RMsg) (now : Nat) :
    (handleRuntimeMessage st p now).hasRealTestStarted =
        st.hasRealTestStarted ∧
      (handleRuntimeMessage st p now).globalFixtureReplayed =
        st.globalFixtureReplayed ∧
      (handleRuntimeMessage st p now).activeSuites = st.activeSuites ∧
      (handleRuntimeMessage st p now).activeHooks = st.activeHooks ∧
      (handleRuntimeMessage st p now).activeTests = st.activeTests ∧
      (handleRuntimeMessage st p now).inBeforeAll = st.inBeforeAll ∧
      (handleRuntimeMessage st p now).inAfterAll = st.inAfterAll ∧
      (handleRuntimeMessage st p now).hookSuiteTitle = st.hookSuiteTitle ∧
      (handleRuntimeMessage st p now).hookConsoleOutput =
        st.hookConsoleOutput ∧
      (handleRuntimeMessage st p now).isFlushing = st.isFlushing := by
  unfold handleRuntimeMessage
  split_ifs <;> simp

lemma handle_nonidle_global (st : ReporterState) (p : RMsg) (now : Nat)
    (h : isIdleWindow st = false) :
    (handleRuntimeMessage st p now).globalSetupEvents =
      st.globalSetupEvents := by
  unfold handleRuntimeMessage
  split_ifs with h1 h2 h3 <;> simp_all

lemma setInsert_ne_nil (l : List Nat) (x : Nat) : setInsert l x ≠ [] := by
  unfold setInsert
  split
  next h => exact List.ne_nil_of_mem h
  next => simp

lemma isIdleWindow_false_of_suites (st : ReporterState)
    (h : st.activeSuites ≠ []) : isIdleWindow st = false := by
  unfold isIdleWindow nothingActive
  simp [h]

/-- Closed form of `replayBufferedGlobalFixture` on a state whose
GlobalBuffer is non-empty and that has an open suite (so that the fixture
markers emitted during the replay are not re-captured). -/
lemma replay_spec (st : ReporterState) (now : Nat)
    (hG : st.globalSetupEvents ≠ []) (hS : st.activeSuites ≠ []) :
    (replayBufferedGlobalFixture st now).2 =
      .hookStartMsg "before" "\"before all\" hook: mochaGlobalSetup"
          (getBufferedMinMaxTimes now st.globalSetupEvents).1 ::
        (st.globalSetupEvents.map BufferedEvent.message ++
          [.hookEndMsg "passed"
            (getBufferedMinMaxTimes now st.globalSetupEvents).2
            ((getBufferedMinMaxTimes now st.globalSetupEvents).2 -
              (getBufferedMinMaxTimes now st.globalSetupEvents).1)]) ∧
    (replayBufferedGlobalFixture st now).1.globalSetupEvents = [] ∧
    (replayBufferedGlobalFixture st now).1.globalFixtureReplayed = true := by
  have hidle : isIdleWindow st = false := isIdleWindow_false_of_suites st hS
  have hlen : ¬st.globalSetupEvents.length = 0 := by
    simpa [List.length_eq_zero] using hG
  unfold replayBufferedGlobalFixture
  rw [if_neg hlen]
  have c1 := handle_preserves_core st
    (.hookStartMsg "before" "\"before all\" hook: mochaGlobalSetup"
      (getBufferedMinMaxTimes now st.globalSetupEvents).1) now
  have g1 := handle_nonidle_global st
    (.hookStartMsg "before" "\"before all\" hook: mochaGlobalSetup"
      (getBufferedMinMaxTimes now st.globalSetupEvents).1) now hidle
  simp only [emitRuntimeMessage, flushBufferedEvents_spec,
    clearGlobalSetupBuffer]
  refine ⟨?_, by trivial, by trivial⟩
  rw [g1]
  simp

/-- `replayBufferedGlobalFixture` either sets the replayed flag, or was a
no-op on an empty GlobalBuffer. -/
lemma replay_guard (st : ReporterState) (now : Nat) :
    (replayBufferedGlobalFixture st now).1.globalFixtureReplayed = true ∨
      (replayBufferedGlobalFixture st now = (st, []) ∧
        st.globalSetupEvents = []) := by
  unfold replayBufferedGlobalFixture
  split
  next h => exact Or.inr ⟨by trivial, List.length_eq_zero.mp h⟩
  next => exact Or.inl rfl

/-- After any suite-start, the replay condition can never hold again. -/
lemma onSuiteStart_disables (st : ReporterState) (s n : Nat) :
    (onSuiteStart st s n).1.globalFixtureReplayed = true ∨
      (onSuiteStart st s n).1.hasRealTestStarted = true ∨
      (onSuiteStart st s n).1.globalSetupEvents = [] := by
  unfold onSuiteStart
  dsimp only
  split
  next hcond =>
    rcases replay_guard
        { st with activeSuites := setInsert st.activeSuites s } n with
      h1 | ⟨heq, hempty⟩
    · exact Or.inl h1
    · rw [heq]
      exact Or.inr (Or.inr hempty)
  next hcond =>
    by_cases h1 : st.globalFixtureReplayed = true
    · exact Or.inl h1
    · by_cases h2 : st.hasRealTestStarted = true
      · exact Or.inr (Or.inl h2)
      · refine Or.inr (Or.inr ?_)
        by_cases h3 : st.globalSetupEvents = []
        · exact h3
        · exfalso
          apply hcond
          rw [Bool.not_eq_true] at h1 h2
          have hpos := List.length_pos.mpr h3
          simp [h1, h2, hpos]

/-- A suite-start on a state where the replay condition fails emits
nothing. -/
lemma onSuiteStart_nil_of_disabled (st : ReporterState) (s n : Nat)
    (h : st.globalFixtureReplayed = true ∨ st.hasRealTestStarted = true ∨
      st.globalSetupEvents = []) :
    (onSuiteStart st s n).2 = [] := by
  unfold onSuiteStart
  dsimp only
  split
  next hcond =>
    exfalso
    simp only [Bool.and_eq_true, Bool.not_eq_eq_eq_not, Bool.not_true,
      decide_eq_true_eq] at hcond
    rcases h with h | h | h <;> simp_all
  next => rfl

/-- C4: on suite-start with a pending (non-empty, not yet replayed)
GlobalBuffer and no real test started, the buffer is replayed as a passing
fixture — start marker, the buffered messages in order, end marker with
status `passed` — then cleared and marked replayed; and a second
suite-start (after any first one, with no new buffered events in between)
emits nothing. -/
theorem c4_suite_start_replay_idempotent (st : ReporterState)
    (s1 s2 : Nat) (n1 n2 : Nat)
    (hR : st.globalFixtureReplayed = false)
    (hT : st.hasRealTestStarted = false)
    (hG : st.globalSetupEvents ≠ []) :
    ((onSuiteStart st s1 n1).2 =
      .hookStartMsg "before" "\"before all\" hook: mochaGlobalSetup"
          (getBufferedMinMaxTimes n1 st.globalSetupEvents).1 ::
        (st.globalSetupEvents.map BufferedEvent.message ++
          [.hookEndMsg "passed"
            (getBufferedMinMaxTimes n1 st.globalSetupEvents).2
            ((getBufferedMinMaxTimes n1 st.globalSetupEvents).2 -
              (getBufferedMinMaxTimes n1 st.globalSetupEvents).1)]) ∧
      (onSuiteStart st s1 n1).1.globalSetupEvents = [] ∧
      (onSuiteStart st s1 n1).1.globalFixtureReplayed = true) ∧
    (∀ st0 : ReporterState,
      (onSuiteStart (onSuiteStart st0 s1 n1).1 s2 n2).2 = []) := by
  constructor
  · have hspec := replay_spec
      { st with activeSuites := setInsert st.activeSuites s1 } n1 hG
      (setInsert_ne_nil st.activeSuites s1)
    unfold onSuiteStart
    dsimp only
    split
    next hcond => exact hspec
    next hcond =>
      exfalso
      apply hcond
      have hpos := List.length_pos.mpr hG
      simp [hR, hT, hpos]
  · intro st0
    exact onSuiteStart_nil_of_disabled _ s2 n2
      (onSuiteStart_disables st0 s1 n1)

/-- Witness for C4: a concrete pending GlobalBuffer replays once and a
repeated suite-start emits nothing. -/
theorem c4_suite_start_replay_idempotent_witness :
    (onSuiteStart
        { initialState with
            globalSetupEvents := [⟨.step_start (some "g"), 2⟩] } 1
        5).1.globalSetupEvents = [] ∧
    (onSuiteStart (onSuiteStart
        { initialState with
            globalSetupEvents := [⟨.step_start (some "g"), 2⟩] } 1 5).1 2
      6).2 = [] := by
  have h := c4_suite_start_replay_idempotent
    { initialState with globalSetupEvents := [⟨.step_start (some "g"), 2⟩] }
    1 2 5 6 rfl rfl (by decide)
  exact ⟨h.1.2.1, h.2 _⟩

/-! ## C1 and C3: hook-end disposition and the failure materializer -/

lemma handle_inBeforeAll (st : ReporterState) (p : RMsg) (now : Nat) :
    (handleRuntimeMessage st p now).inBeforeAll = st.inBeforeAll := by
  unfold handleRuntimeMessage
  split_ifs <;> rfl

lemma handle_inAfterAll (st : ReporterState) (p : RMsg) (now : Nat) :
    (handleRuntimeMessage st p now).inAfterAll = st.inAfterAll := by
  unfold handleRuntimeMessage
  split_ifs <;> rfl

lemma handle_hookConsole (st : ReporterState) (p : RMsg) (now : Nat) :
    (handleRuntimeMessage st p now).hookConsoleOutput =
      st.hookConsoleOutput := by
  unfold handleRuntimeMessage
  split_ifs <;> rfl

/-- With both in-hook flags down, the classifier never touches the
HookBuffer. -/
lemma handle_preserves_hookbuf (st : ReporterState) (p : RMsg) (now : Nat)
    (hB : st.inBeforeAll = false) (hA : st.inAfterAll = false) :
    (handleRuntimeMessage st p now).bufferedEvents = st.bufferedEvents := by
  unfold handleRuntimeMessage
  split_ifs <;> simp_all

lemma dropHookFlags_proj (st0 : ReporterState) (title : String) :
    (dropHookFlags st0 title).bufferedEvents = st0.bufferedEvents ∧
    (dropHookFlags st0 title).globalSetupEvents = st0.globalSetupEvents ∧
    (dropHookFlags st0 title).hasRealTestStarted = st0.hasRealTestStarted ∧
    (dropHookFlags st0 title).hookSuiteTitle = st0.hookSuiteTitle ∧
    (dropHookFlags st0 title).hookConsoleOutput = st0.hookConsoleOutput := by
  unfold dropHookFlags
  dsimp only
  split_ifs <;> simp

lemma dropHookFlags_flags (st0 : ReporterState) (title : String)
    (hBA : containsStr title beforeAllMarker = true ∨
      st0.inBeforeAll = false)
    (hAA : containsStr title afterAllMarker = true ∨
      st0.inAfterAll = false) :
    (dropHookFlags st0 title).inBeforeAll = false ∧
    (dropHookFlags st0 title).inAfterAll = false := by
  unfold dropHookFlags
  dsimp only
  split_ifs <;> constructor <;> simp_all

/-- Full shape of the synthetic-test materialization when the in-hook
flags are already down (so no emission is re-captured into the
HookBuffer). -/
lemma materializeHookFailure_spec (st2 : ReporterState) (title : String)
    (err : Option ErrVal) (now : Nat)
    (hB : st2.inBeforeAll = false) (hA : st2.inAfterAll = false) :
    (materializeHookFailure st2 title err now).2 =
      .testStartMsg (st2.hookSuiteTitle ++ ": " ++
          (if containsStr title beforeAllMarker then "beforeAll"
           else "afterAll") ++ " hook failure")
        (getBufferedMinMaxTimes now st2.bufferedEvents).1 ::
      .metadata [("tag",
          if containsStr title beforeAllMarker then "BeforeAllFailure"
          else "AfterAllFailure"),
        ("parentSuite", st2.hookSuiteTitle)] ::
      (st2.bufferedEvents.map BufferedEvent.message ++
        ((if trimStr st2.hookConsoleOutput ≠ "" then
            [.attachment_content (some "Hook Console Logs")
              (some (encodeBase64
                (".........Hook Console Logs.........\n\n" ++
                  st2.hookConsoleOutput)))
              (some "text/plain") (some "base64")]
          else []) ++
         [.testEndMsg "broken" (getMessageAndTraceFromErrorLocal err)
           (getBufferedMinMaxTimes now st2.bufferedEvents).2])) ∧
    (materializeHookFailure st2 title err now).1.bufferedEvents = [] ∧
    (materializeHookFailure st2 title err now).1.globalSetupEvents = [] ∧
    (materializeHookFailure st2 title err now).1.hookConsoleOutput = "" := by
  have hB1 : ∀ p, (handleRuntimeMessage st2 p now).inBeforeAll = false := by
    intro p
    rw [handle_inBeforeAll]
    exact hB
  have hA1 : ∀ p, (handleRuntimeMessage st2 p now).inAfterAll = false := by
    intro p
    rw [handle_inAfterAll]
    exact hA
  have hbuf : ∀ p q,
      (handleRuntimeMessage (handleRuntimeMessage st2 p now) q
        now).bufferedEvents = st2.bufferedEvents := by
    intro p q
    rw [handle_preserves_hookbuf _ q now (hB1 p) (hA1 p),
      handle_preserves_hookbuf _ p now hB hA]
  have hcons : ∀ p q,
      (handleRuntimeMessage (handleRuntimeMessage st2 p now) q
        now).hookConsoleOutput = st2.hookConsoleOutput := by
    intro p q
    rw [handle_hookConsole, handle_hookConsole]
  have hbuf1 : ∀ p, (handleRuntimeMessage st2 p now).bufferedEvents =
      st2.bufferedEvents := fun p => handle_preserves_hookbuf st2 p now hB hA
  simp only [materializeHookFailure, emitRuntimeMessage,
    flushBufferedEvents_spec, clearBuffers]
  refine ⟨?_, ?_, ?_, ?_⟩
  · simp only [hbuf, hcons, hbuf1]
    split <;> split <;> rename_i h2 <;> simp [h2]
  · trivial
  · trivial
  · trivial

/-- Head and last of the materialized trace, and the cleared buffers, hold
for every state (no flag assumptions). -/
lemma materializeHookFailure_ends (st2 : ReporterState) (title : String)
    (err : Option ErrVal) (now : Nat) :
    (materializeHookFailure st2 title err now).2.head? =
      some (.testStartMsg (st2.hookSuiteTitle ++ ": " ++
          (if containsStr title beforeAllMarker then "beforeAll"
           else "afterAll") ++ " hook failure")
        (getBufferedMinMaxTimes now st2.bufferedEvents).1) ∧
    (materializeHookFailure st2 title err now).2.getLast? =
      some (.testEndMsg "broken" (getMessageAndTraceFromErrorLocal err)
        (getBufferedMinMaxTimes now st2.bufferedEvents).2) ∧
    (materializeHookFailure st2 title err now).1.bufferedEvents = [] ∧
    (materializeHookFailure st2 title err now).1.globalSetupEvents = [] ∧
    (materializeHookFailure st2 title err now).1.hookConsoleOutput = "" := by
  simp only [materializeHookFailure, emitRuntimeMessage,
    flushBufferedEvents_spec, clearBuffers]
  refine ⟨by simp, ?_, ?_, ?_, ?_⟩
  · exact List.getLast?_concat _
  · trivial
  · trivial
  · trivial

/-- C1 counterexample: at a concrete state where the hook errored after a
real result has started, the HookBuffer is left untouched (not discarded)
and nothing is emitted or logged, contradicting the claimed "discard with a
logged anomaly" disposition for that row of the transition table. -/
theorem c1_hook_end_disposition_counterexample :
    (onHookEnd
      { initialState with
          hasRealTestStarted := true,
          bufferedEvents := [⟨.other "x", 1⟩] }
      ⟨0, "\"before all\" hook for S", some (.obj (some "boom") none)⟩
      9).1.bufferedEvents = [⟨.other "x", 1⟩] ∧
    (onHookEnd
      { initialState with
          hasRealTestStarted := true,
          bufferedEvents := [⟨.other "x", 1⟩] }
      ⟨0, "\"before all\" hook for S", some (.obj (some "boom") none)⟩
      9).2 = [] := by
  constructor <;> rfl

/-- C1 (amended): on hook completion, (1) with no error the HookBuffer is
cleared without emitting anything; (2) with an error before any real
result a synthetic result is materialized (the trace opens with its start
marker and closes with a broken end marker) and the HookBuffer is cleared;
(3) with an error after a real result has started the reporter does
nothing beyond flag bookkeeping: the HookBuffer is left unchanged and
nothing is emitted or logged. -/
theorem c1_hook_end_disposition (st : ReporterState) (hook : HookInfo)
    (now : Nat) :
    (errTruthy hook.error = false →
      (onHookEnd st hook now).1.bufferedEvents = [] ∧
      (onHookEnd st hook now).1.globalSetupEvents = st.globalSetupEvents ∧
      (onHookEnd st hook now).2 = []) ∧
    (errTruthy hook.error = true → st.hasRealTestStarted = false →
      (onHookEnd st hook now).2.head? =
        some (.testStartMsg (st.hookSuiteTitle ++ ": " ++
            (if containsStr hook.title beforeAllMarker then "beforeAll"
             else "afterAll") ++ " hook failure")
          (getBufferedMinMaxTimes now st.bufferedEvents).1) ∧
      (onHookEnd st hook now).2.getLast? =
        some (.testEndMsg "broken"
          (getMessageAndTraceFromErrorLocal hook.error)
          (getBufferedMinMaxTimes now st.bufferedEvents).2) ∧
      (onHookEnd st hook now).1.bufferedEvents = []) ∧
    (errTruthy hook.error = true → st.hasRealTestStarted = true →
      (onHookEnd st hook now).1.bufferedEvents = st.bufferedEvents ∧
      (onHookEnd st hook now).1.globalSetupEvents = st.globalSetupEvents ∧
      (onHookEnd st hook now).2 = []) := by
  have hp := dropHookFlags_proj
    { st with activeHooks := st.activeHooks.erase hook.handle } hook.title
  obtain ⟨hp1, hp2, hp3, hp4, hp5⟩ := hp
  refine ⟨?_, ?_, ?_⟩
  · intro herr
    unfold onHookEnd
    dsimp only
    rw [herr, Bool.not_false, if_pos rfl]
    refine ⟨?_, ?_, rfl⟩
    · dsimp only
      split
      next => rfl
      next h =>
        rw [hp1] at h ⊢
        exact List.length_eq_zero.mp (by omega)
    · dsimp only
      split
      next => exact hp2
      next => exact hp2
  · intro herr hstart
    unfold onHookEnd
    dsimp only
    rw [herr, Bool.not_true, if_neg Bool.false_ne_true]
    rw [if_pos (by rw [hp3]; simp [hstart])]
    have he := materializeHookFailure_ends
      (dropHookFlags
        { st with activeHooks := st.activeHooks.erase hook.handle }
        hook.title) hook.title hook.error now
    rw [hp1, hp4] at he
    exact ⟨he.1, he.2.1, he.2.2.1⟩
  · intro herr hstart
    unfold onHookEnd
    dsimp only
    rw [herr, Bool.not_true, if_neg Bool.false_ne_true]
    rw [if_neg (by rw [hp3]; simp [hstart])]
    exact ⟨hp1, hp2, rfl⟩

/-- Witness for C1 (amended) at a concrete no-error hook completion with a
buffered event. -/
theorem c1_hook_end_disposition_witness :
    (onHookEnd
      { initialState with bufferedEvents := [⟨.other "x", 1⟩] }
      ⟨0, "\"before all\" hook for S", none⟩ 9).1.bufferedEvents = [] ∧
    (onHookEnd
      { initialState with bufferedEvents := [⟨.other "x", 1⟩] }
      ⟨0, "\"before all\" hook for S", none⟩ 9).2 = [] := by
  have h := (c1_hook_end_disposition
    { initialState with bufferedEvents := [⟨.other "x", 1⟩] }
    ⟨0, "\"before all\" hook for S", none⟩ 9).1 rfl
  exact ⟨h.1, h.2.2⟩

/-- C3: when a setup hook errors before any real result, the reporter
emits exactly the materialization bracket — a start marker named
`"<scope>: <hookType> hook failure"`, the metadata labels, the entire
HookBuffer in insertion order, one labeled attachment holding the
accumulated console text, and a close marker with status `broken` and the
status details extracted from the hook's error — then clears the buffers
and the accumulated console text. -/
theorem c3_hook_failure_materialization (st : ReporterState)
    (hook : HookInfo) (now : Nat)
    (herr : errTruthy hook.error = true)
    (hstart : st.hasRealTestStarted = false)
    (hBA : containsStr hook.title beforeAllMarker = true ∨
      st.inBeforeAll = false)
    (hAA : containsStr hook.title afterAllMarker = true ∨
      st.inAfterAll = false)
    (hcons : trimStr st.hookConsoleOutput ≠ "") :
    (onHookEnd st hook now).2 =
      .testStartMsg (st.hookSuiteTitle ++ ": " ++
          (if containsStr hook.title beforeAllMarker then "beforeAll"
           else "afterAll") ++ " hook failure")
        (getBufferedMinMaxTimes now st.bufferedEvents).1 ::
      .metadata [("tag",
          if containsStr hook.title beforeAllMarker then "BeforeAllFailure"
          else "AfterAllFailure"),
        ("parentSuite", st.hookSuiteTitle)] ::
      (st.bufferedEvents.map BufferedEvent.message ++
        [.attachment_content (some "Hook Console Logs")
           (some (encodeBase64
             (".........Hook Console Logs.........\n\n" ++
               st.hookConsoleOutput)))
           (some "text/plain") (some "base64"),
         .testEndMsg "broken" (getMessageAndTraceFromErrorLocal hook.error)
           (getBufferedMinMaxTimes now st.bufferedEvents).2]) ∧
    (onHookEnd st hook now).1.bufferedEvents = [] ∧
    (onHookEnd st hook now).1.globalSetupEvents = [] ∧
    (onHookEnd st hook now).1.hookConsoleOutput = "" := by
  have hp := dropHookFlags_proj
    { st with activeHooks := st.activeHooks.erase hook.handle } hook.title
  obtain ⟨hp1, hp2, hp3, hp4, hp5⟩ := hp
  have hfl := dropHookFlags_flags
    { st with activeHooks := st.activeHooks.erase hook.handle } hook.title
    hBA hAA
  unfold onHookEnd
  dsimp only
  rw [herr, Bool.not_true, if_neg Bool.false_ne_true]
  rw [if_pos (by rw [hp3]; simp [hstart])]
  have hs := materializeHookFailure_spec
    (dropHookFlags
      { st with activeHooks := st.activeHooks.erase hook.handle }
      hook.title) hook.title hook.error now hfl.1 hfl.2
  rw [hp1, hp4, hp5] at hs
  obtain ⟨ht, h1, h2, h3⟩ := hs
  refine ⟨?_, h1, h2, h3⟩
  rw [ht]
  rw [if_pos hcons]
  simp

/-- Witness for C3 at a concrete failed before-all hook with one buffered
step and captured console text. -/
theorem c3_hook_failure_materialization_witness :
    (onHookEnd
      { initialState with
          hookSuiteTitle := "My Suite",
          bufferedEvents := [⟨.step_start (some "s1"), 3⟩],
          hookConsoleOutput := "boom\n" }
      ⟨0, "\"before all\" hook for My Suite",
        some (.obj (some "fail") (some "trace"))⟩ 8).1.bufferedEvents =
      [] ∧
    (onHookEnd
      { initialState with
          hookSuiteTitle := "My Suite",
          bufferedEvents := [⟨.step_start (some "s1"), 3⟩],
          hookConsoleOutput := "boom\n" }
      ⟨0, "\"before all\" hook for My Suite",
        some (.obj (some "fail") (some "trace"))⟩ 8).1.hookConsoleOutput =
      "" := by
  have h := c3_hook_failure_materialization
    { initialState with
        hookSuiteTitle := "My Suite",
        bufferedEvents := [⟨.step_start (some "s1"), 3⟩],
        hookConsoleOutput := "boom\n" }
    ⟨0, "\"before all\" hook for My Suite",
      some (.obj (some "fail") (some "trace"))⟩ 8 rfl rfl
    (Or.inl (by decide)) (Or.inr rfl) (by decide)
  exact ⟨h.2.1, h.2.2.2⟩

/-! ## C7: output-stream multiplexer -/

lemma strLenNeZero (s : String) (h : s ≠ "") : s.length ≠ 0 := by
  intro hl
  apply h
  cases s with
  | mk data =>
    cases data with
    | nil => rfl
    | cons a l => simp [String.length] at hl

lemma append_ne_self (a s : String) (h : s ≠ "") : a ++ s ≠ a := by
  intro heq
  have hlen := congrArg String.length heq
  rw [String.length_append] at hlen
  exact strLenNeZero s h (by omega)

/-- C7: every write through the installed stdout/stderr interceptor is
forwarded to the previously installed downstream writer with the original
chunk unmodified (as the final downstream call), and the decoded text is
appended to the accumulation buffer exactly when a setup hook is open or
no real result has started yet.  (The one-shot prepend of accumulated hook
logs, a separate behavior, is kept out of the way by `hpre`.) -/
theorem c7_stream_multiplexer (st : ReporterState) (chunk : Chunk)
    (enc : EncArg) (cb : Option Nat)
    (hw : st.stdoutWrapperInstalled = true)
    (hpre : st.hookLogsPrepended = true ∨ st.hasRealTestStarted = false)
    (hne : chunkToString chunk ≠ "") :
    ((stdoutWrite st chunk enc cb).2.getLast?).map ForwardCall.chunk =
      some chunk ∧
    ((stdoutWrite st chunk enc cb).1.hookConsoleOutput =
        st.hookConsoleOutput ++ chunkToString chunk ↔
      (st.inBeforeAll || st.inAfterAll || !st.hasRealTestStarted) = true) ∧
    ((stderrWrite st chunk enc cb).2.getLast?).map ForwardCall.chunk =
      some chunk ∧
    ((stderrWrite st chunk enc cb).1.hookErrorOutput =
        st.hookErrorOutput ++ chunkToString chunk ↔
      (st.inBeforeAll || st.inAfterAll || !st.hasRealTestStarted) = true) := by
  refine ⟨?_, ?_, ?_, ?_⟩
  · unfold stdoutWrite
    dsimp only
    split_ifs <;> cases enc <;>
      simp_all [List.getLast?_append, List.getLast?_concat]
  · unfold stdoutWrite
    dsimp only
    rcases hpre with hp | hs
    · by_cases hcap :
        (st.inBeforeAll || st.inAfterAll || !st.hasRealTestStarted) = true
      · rw [if_pos hcap, if_neg (by simp [hp])]
        simp [hcap]
      · rw [if_neg hcap, if_neg (by simp [hp])]
        exact iff_of_false
          (fun heq =>
            append_ne_self st.hookConsoleOutput (chunkToString chunk) hne
              heq.symm) hcap
    · have hcap :
          (st.inBeforeAll || st.inAfterAll || !st.hasRealTestStarted) =
            true := by
        simp [hs]
      rw [if_pos hcap, if_neg (by simp [hs])]
      simp [hcap]
  · unfold stderrWrite
    dsimp only
    split_ifs <;> cases enc <;>
      simp_all [List.getLast?_append, List.getLast?_concat]
  · unfold stderrWrite
    dsimp only
    by_cases hcap :
        (st.inBeforeAll || st.inAfterAll || !st.hasRealTestStarted) = true
    · rw [if_pos hcap]
      simp [hcap]
    · rw [if_neg hcap]
      exact iff_of_false
        (fun heq =>
          append_ne_self st.hookErrorOutput (chunkToString chunk) hne
            heq.symm) hcap

/-- Witness for C7: a string write during the pre-test window is captured
and forwarded unmodified. -/
theorem c7_stream_multiplexer_witness :
    ((stdoutWrite initialState (.str "hello") .noneArg none).2.getLast?).map
        ForwardCall.chunk = some (.str "hello") ∧
    (stdoutWrite initialState (.str "hello") .noneArg
        none).1.hookConsoleOutput =
      initialState.hookConsoleOutput ++ chunkToString (.str "hello") := by
  have h := c7_stream_multiplexer initialState (.str "hello") .noneArg none
    rfl (Or.inr rfl) (by decide)
  exact ⟨h.1, h.2.1.mpr (by decide)⟩

/-! ## C5: the exit handler's step-forest builder -/

/-- Replace a step's stop time. -/
def withStop (s : Step) (t : Nat) : Step :=
  .mk s.name s.start t s.substeps s.attachments

/-- Modelled from the spec: the builder §4.5 describes — a step-stop event
always pops and closes the current top with the provided end time, and
every step still open at end-of-list is closed at the buffer's last known
timestamp.  Defined only for comparison with the source's builder. -/
def specApplyExitEvent (uuid : String) (acc : BuildState)
    (ev : BufferedEvent) : BuildState :=
  match ev.message with
  | .step_start nm =>
    let step : Step := .mk (nm.getD "Step") ev.capturedAt ev.capturedAt [] []
    { acc with stack := step :: acc.stack }
  | .step_stop stopOpt =>
    match acc.stack with
    | top :: rest =>
      let q := attachPopped (withStop top (stopOpt.getD ev.capturedAt)) rest
        acc.roots
      { acc with roots := q.1, stack := q.2 }
    | [] => acc
  | .attachment_content nm content ctype _enc =>
    let source := uuid ++ "-" ++ sanitizeName (nm.getD "attachment") ++
      "-" ++ toString (acc.files.length + 1)
    let ctypeV := ctype.getD "application/octet-stream"
    let files := acc.files ++ [⟨source, content, ctypeV⟩]
    let att : AttachmentRef :=
      ⟨nm.getD "Attachment", source ++ guessExt ctypeV, ctypeV⟩
    match acc.stack with
    | top :: rest =>
      { acc with stack := withAttachment top att :: rest, files := files }
    | [] =>
      { acc with
          roots := acc.roots ++
            [.mk "Attachment" ev.capturedAt ev.capturedAt [] [att]]
          files := files }
  | _ => acc

/-- Modelled from the spec: close every still-open frame at the buffer's
last known timestamp while folding the stack away. -/
def specCollapseStack (t : Nat) : Step → List Step → Step
  | f, [] => withStop f t
  | f, p :: rs => specCollapseStack t (withChild p (withStop f t)) rs

/-- Modelled from the spec: the whole spec-described builder. -/
def specBuildSteps (uuid : String) (events : List BufferedEvent) :
    List Step :=
  let b := events.foldl (specApplyExitEvent uuid) ⟨[], [], []⟩
  let lastTs := (getBufferedMinMaxTimes 0 events).2
  match b.stack with
  | [] => b.roots
  | f :: rest => b.roots ++ [specCollapseStack lastTs f rest]

/-- The concrete buffer refuting C5 as stated: one step that is never
stopped, then an attachment at a later timestamp. -/
def exC5 : List BufferedEvent :=
  [⟨.step_start (some "a"), 1⟩,
   ⟨.attachment_content (some "shot") (some "Zm9v") (some "image/png")
     (some "base64"), 7⟩]

/-- C5 counterexample: on `exC5` the source builder leaves the unclosed
step with its creation timestamp (stop = 1), while the spec's words demand
it be closed at the buffer's last known timestamp (stop = 7): the two
builders disagree. -/
theorem c5_step_forest_counterexample :
    (buildStepsFromEvents "u" exC5).1.map Step.stop = [1] ∧
    (specBuildSteps "u" exC5).map Step.stop = [7] ∧
    (buildStepsFromEvents "u" exC5).1 ≠ specBuildSteps "u" exC5 := by
  refine ⟨rfl, rfl, ?_⟩
  intro h
  have h2 : ([1] : List Nat) = [7] :=
    congrArg (fun l => l.map Step.stop) h
  exact absurd h2 (by decide)

mutual

/-- All stop timestamps in a step tree. -/
def Step.stops : Step → List Nat
  | .mk _ _ e subs _ => e :: stepsStops subs

/-- All stop timestamps in a step forest. -/
def stepsStops : List Step → List Nat
  | [] => []
  | s :: rest => Step.stops s ++ stepsStops rest

end

lemma stepsStops_append (a b : List Step) :
    stepsStops (a ++ b) = stepsStops a ++ stepsStops b := by
  induction a with
  | nil => simp [stepsStops]
  | cons s rest ih => simp [stepsStops, ih]

lemma stops_withChild (p f : Step) :
    Step.stops (withChild p f) =
      p.stop :: (stepsStops p.substeps ++ Step.stops f) := by
  cases p with
  | mk n s e subs a =>
    simp [withChild, Step.stops, Step.stop, Step.substeps,
      stepsStops_append, stepsStops]

lemma stops_head (p : Step) :
    Step.stops p = p.stop :: stepsStops p.substeps := by
  cases p with
  | mk n s e subs a => rfl

lemma collapseStack_stops (rest : List Step) :
    ∀ f : Step,
      (Step.stops (collapseStack f rest)).Perm
        (Step.stops f ++ stepsStops rest) := by
  induction rest with
  | nil => intro f; simp [collapseStack, stepsStops]
  | cons p rs ih =>
    intro f
    have step1 := ih (withChild p f)
    rw [stops_withChild] at step1
    refine List.Perm.trans step1 ?_
    have hL : ((p.stop :: (stepsStops p.substeps ++ Step.stops f)) ++
        stepsStops rs).Perm
        (p.stop :: ((Step.stops f ++ stepsStops p.substeps) ++
          stepsStops rs)) :=
      List.Perm.append_right (stepsStops rs)
        (List.Perm.cons p.stop
          (@List.perm_append_comm _ (stepsStops p.substeps) (Step.stops f)))
    have hR : (Step.stops f ++ ((p.stop :: stepsStops p.substeps) ++
        stepsStops rs)).Perm
        (p.stop :: ((Step.stops f ++ stepsStops p.substeps) ++
          stepsStops rs)) := by
      have h := @List.perm_middle _ p.stop (Step.stops f)
        (stepsStops p.substeps ++ stepsStops rs)
      rw [← List.append_assoc] at h
      exact h
    refine List.Perm.trans hL (List.Perm.trans hR.symm ?_)
    refine List.Perm.append_left (Step.stops f) ?_
    show ((p.stop :: stepsStops p.substeps) ++ stepsStops rs).Perm
      (Step.stops p ++ stepsStops rs)
    rw [stops_head]

/-- Folding the still-open stack into the forest preserves exactly the
existing stop timestamps: no open step is re-closed at any other time. -/
lemma finalizeStack_stops (roots stack : List Step) :
    (stepsStops (finalizeStack roots stack)).Perm
      (stepsStops roots ++ stepsStops stack) := by
  cases stack with
  | nil => simp [finalizeStack, stepsStops]
  | cons f rest =>
    show (stepsStops (roots ++ [collapseStack f rest])).Perm _
    rw [stepsStops_append]
    have h1 : (stepsStops [collapseStack f rest]).Perm
        (Step.stops f ++ stepsStops rest) := by
      simpa [stepsStops] using collapseStack_stops rest f
    exact List.Perm.append_left (stepsStops roots) h1

/-- C5 (amended): the source's step-forest builder behaves as follows —
a step-start pushes a new step (child of the top of stack once assembled,
root otherwise) created with `start = stop =` its own timestamp; a
step-stop pops and closes the top with the provided end time only when a
non-zero end time is present, and is ignored otherwise; an attachment goes
onto the top of stack when one is open and otherwise becomes a root-level
pseudo-step; and the end-of-list fold preserves every step's recorded stop
timestamp — steps still open keep the stop they were created with (their
own start), not the buffer's last timestamp. -/
theorem c5_step_forest_builder (uuid : String) :
    (∀ (acc : BuildState) (nm : Option String) (t : Nat),
      applyExitEvent uuid acc ⟨.step_start nm, t⟩ =
        { acc with stack := Step.mk (nm.getD "Step") t t [] [] ::
            acc.stack }) ∧
    (∀ (acc : BuildState) (top : Step) (rest : List Step) (t sp : Nat),
      acc.stack = top :: rest → sp ≠ 0 →
      applyExitEvent uuid acc ⟨.step_stop (some sp), t⟩ =
        { acc with
            roots := (attachPopped (withStop top sp) rest acc.roots).1,
            stack := (attachPopped (withStop top sp) rest acc.roots).2 }) ∧
    (∀ (acc : BuildState) (t : Nat),
      applyExitEvent uuid acc ⟨.step_stop none, t⟩ = acc ∧
      applyExitEvent uuid acc ⟨.step_stop (some 0), t⟩ = acc) ∧
    (∀ (acc : BuildState) (nm content ctype enc0 : Option String) (t : Nat),
      (∀ top rest, acc.stack = top :: rest →
        applyExitEvent uuid acc
            ⟨.attachment_content nm content ctype enc0, t⟩ =
          { acc with
              stack := withAttachment top
                ⟨nm.getD "Attachment",
                 (uuid ++ "-" ++ sanitizeName (nm.getD "attachment") ++
                   "-" ++ toString (acc.files.length + 1)) ++
                   guessExt (ctype.getD "application/octet-stream"),
                 ctype.getD "application/octet-stream"⟩ :: rest,
              files := acc.files ++
                [⟨uuid ++ "-" ++ sanitizeName (nm.getD "attachment") ++
                    "-" ++ toString (acc.files.length + 1), content,
                  ctype.getD "application/octet-stream"⟩] }) ∧
      (acc.stack = [] →
        applyExitEvent uuid acc
            ⟨.attachment_content nm content ctype enc0, t⟩ =
          { acc with
              roots := acc.roots ++ [Step.mk "Attachment" t t []
                [⟨nm.getD "Attachment",
                  (uuid ++ "-" ++ sanitizeName (nm.getD "attachment") ++
                    "-" ++ toString (acc.files.length + 1)) ++
                    guessExt (ctype.getD "application/octet-stream"),
                  ctype.getD "application/octet-stream"⟩]],
              files := acc.files ++
                [⟨uuid ++ "-" ++ sanitizeName (nm.getD "attachment") ++
                    "-" ++ toString (acc.files.length + 1), content,
                  ctype.getD "application/octet-stream"⟩] })) ∧
    (∀ roots stack : List Step,
      (stepsStops (finalizeStack roots stack)).Perm
        (stepsStops roots ++ stepsStops stack)) := by
  refine ⟨?_, ?_, ?_, ?_, ?_⟩
  · intro acc nm t
    rfl
  · intro acc top rest t sp hstack hsp
    obtain ⟨roots, stack, files⟩ := acc
    dsimp only at hstack
    subst hstack
    simp [applyExitEvent, hsp, withStop]
  · intro acc t
    obtain ⟨roots, stack, files⟩ := acc
    constructor
    · cases stack <;> rfl
    · cases stack with
      | nil => rfl
      | cons top rest => simp [applyExitEvent]
  · intro acc nm content ctype enc0 t
    constructor
    · intro top rest hstack
      obtain ⟨roots, stack, files⟩ := acc
      dsimp only at hstack
      subst hstack
      rfl
    · intro hstack
      obtain ⟨roots, stack, files⟩ := acc
      dsimp only at hstack
      subst hstack
      rfl
  · exact fun roots stack => finalizeStack_stops roots stack

/-- Witness for C5 (amended) at concrete inputs touching every branch
hypothesis. -/
theorem c5_step_forest_builder_witness :
    applyExitEvent "u" ⟨[], [Step.mk "a" 1 1 [] []], []⟩
        ⟨.step_stop (some 5), 6⟩ =
      { roots := [Step.mk "a" 1 5 [] []], stack := [], files := [] } ∧
    applyExitEvent "u" ⟨[], [Step.mk "a" 1 1 [] []], []⟩
        ⟨.step_stop none, 6⟩ =
      ⟨[], [Step.mk "a" 1 1 [] []], []⟩ := by
  constructor
  · have h := (c5_step_forest_builder "u").2.1
      ⟨[], [Step.mk "a" 1 1 [] []], []⟩ (Step.mk "a" 1 1 [] [])
      [] 6 5 rfl (by decide)
    rw [h]
    rfl
  · exact ((c5_step_forest_builder "u").2.2.1
      ⟨[], [Step.mk "a" 1 1 [] []], []⟩ 6).1

end AllureReporter
